import Mathlib

/-!
Verification development for `src/Lab7.c`, a CUDA program that adds two
host vectors element-wise by splitting the input into segments of
`segmentSize = 128` elements, cycling the segments over `N_STREAMS = 4`
CUDA streams, and issuing per segment an asynchronous copy-in, a kernel
launch, and an asynchronous copy-out.

The embedding has two layers, both translated from the source:

* a state-transformer model (`PipeState`, `memcpyInOp`, `kernelOp`,
  `memcpyOutOp`, `runChunk`, `runPipeline`) that computes the data
  produced by the pipeline.  Because every operation issued to stream
  `s` only touches stream `s`'s device buffers and a host-output region
  disjoint from every other in-flight segment's region, and CUDA
  guarantees FIFO order within one stream, executing the issued
  operations sequentially in issuance order is a faithful model of any
  admissible concurrent schedule.  Element values are kept abstract: the
  model is parameterised by a carrier type and a binary operation
  standing for IEEE-754 float addition, which is sound here because each
  output element is a single un-reduced addition.
* a trace model (`DevOp`, `programTrace`, `runWithErrors`) that records
  which CUDA API calls `main` issues, in order, together with the
  `check`-macro behaviour of `Lab7.c` (lines 8..15): a checked call that
  returns an error exits the process with `EXIT_FAILURE` and a
  diagnostic carrying the error string, file and line; the kernel launch
  at lines 125..128 is not checked.  The constructors `streamDestroy`
  and `deviceSync` are part of the vocabulary so that claims about
  stream teardown and device synchronisation can be stated; `Lab7.c`
  never calls `cudaStreamDestroy` or `cudaDeviceSynchronize`, so no
  trace contains them.
-/

namespace Lab7

/-- Number of CUDA streams, `#define N_STREAMS 4`, line 30. -/
def N_STREAMS : Nat := 4

/-- Threads per CUDA block, `#define BLOCK_SIZE 128`, line 37. -/
def BLOCK_SIZE : Int := 128

/-- Per-stream device buffer capacity in elements,
`const int segmentSize = 128;`, line 90. -/
def segmentSize : Int := 128

/-- The macro `min(a, b) = (a < b ? a : b)`, line 22. -/
def min' (a b : Int) : Int := if a < b then a else b

/-- The macro `max(a, b) = (a > b ? a : b)`, line 23. -/
def max' (a b : Int) : Int := if a > b then a else b

/-- `copySize` as computed in the copy-in loop, line 107:
`max(min(segmentSize, inputLength - i - s*segmentSize), 0)`. -/
def copySizeIn (n i s : Int) : Int :=
  max' (min' segmentSize (n - i - s * segmentSize)) 0

/-- `copySize` as recomputed in the kernel-launch loop, line 123
(the same expression as line 107). -/
def copySizeKer (n i s : Int) : Int :=
  max' (min' segmentSize (n - i - s * segmentSize)) 0

/-- `copySize` as recomputed in the copy-out loop, line 133
(the same expression as line 107). -/
def copySizeOut (n i s : Int) : Int :=
  max' (min' segmentSize (n - i - s * segmentSize)) 0

/-- The grid size `int d = (segmentSize - 1) / BLOCK_SIZE + 1;`, line 124. -/
def gridDim : Int := (segmentSize - 1) / BLOCK_SIZE + 1

/-- State touched by the pipeline: the three device buffers of each
stream (`deviceInput1[s]`, `deviceInput2[s]`, `deviceOutput[s]`, indexed
stream-first) and the host output vector `hostOutput`.  Buffers are
modelled as total functions; only indices below `segmentSize` are ever
accessed.  `hOut` is `Int`-indexed because the source indexes it with
`int` offsets. -/
@[ext]
structure PipeState (α : Type) where
  dIn1 : Nat → Nat → α
  dIn2 : Nat → Nat → α
  dOut : Nat → Nat → α
  hOut : Int → α

/-- The CUDA kernel `vecAdd`, lines 44..49.  A launch
`vecAdd<<<d, BLOCK_SIZE, 0, stream[s]>>>(in1, in2, out, len)` runs one
thread for every global index `idx = blockIdx.x*blockDim.x + threadIdx.x`
in `[0, d*BLOCK_SIZE)`; the thread writes `in1[idx] + in2[idx]` to
`out[idx]` when `idx < len` and performs no write otherwise.  `addOp`
stands for float addition. -/
def vecAdd {α : Type} (addOp : α → α → α) (in1 in2 devout : Nat → α)
    (len : Int) : Nat → α :=
  fun idx =>
    if (idx : Int) < gridDim * BLOCK_SIZE ∧ (idx : Int) < len then
      addOp (in1 idx) (in2 idx)
    else devout idx

/-- The two `cudaMemcpyAsync` host-to-device copies of one segment,
lines 109..118: `copySize` elements of `hostInput1 + i + s*segmentSize`
into `deviceInput1[s]`, and likewise for input 2. -/
def memcpyInOp {α : Type} (in1 in2 : Int → α) (n i : Int) (s : Nat)
    (st : PipeState α) : PipeState α :=
  { st with
    dIn1 := fun s' j =>
      if s' = s ∧ (j : Int) < copySizeIn n i ↑s then
        in1 (i + ↑s * segmentSize + ↑j)
      else st.dIn1 s' j
    dIn2 := fun s' j =>
      if s' = s ∧ (j : Int) < copySizeIn n i ↑s then
        in2 (i + ↑s * segmentSize + ↑j)
      else st.dIn2 s' j }

/-- The kernel launch of one segment, lines 123..128:
`vecAdd<<<d, BLOCK_SIZE, 0, stream[s]>>>(deviceInput1[s],
deviceInput2[s], deviceOutput[s], copySize)`. -/
def kernelOp {α : Type} (addOp : α → α → α) (n i : Int) (s : Nat)
    (st : PipeState α) : PipeState α :=
  { st with
    dOut := fun s' j =>
      if s' = s then
        vecAdd addOp (st.dIn1 s) (st.dIn2 s) (st.dOut s)
          (copySizeKer n i ↑s) j
      else st.dOut s' j }

/-- The `cudaMemcpyAsync` device-to-host copy of one segment,
lines 133..138: `copySize` elements of `deviceOutput[s]` into
`hostOutput + i + s*segmentSize`. -/
def memcpyOutOp {α : Type} (n i : Int) (s : Nat) (st : PipeState α) :
    PipeState α :=
  { st with
    hOut := fun x =>
      if i + ↑s * segmentSize ≤ x ∧
          x < i + ↑s * segmentSize + copySizeOut n i ↑s then
        st.dOut s (x - (i + ↑s * segmentSize)).toNat
      else st.hOut x }

/-- The copy-in loop over streams, lines 105..119. -/
def copyInPhase {α : Type} (in1 in2 : Int → α) (n i : Int)
    (st : PipeState α) : PipeState α :=
  (List.range N_STREAMS).foldl (fun st s => memcpyInOp in1 in2 n i s st) st

/-- The kernel-launch loop over streams, lines 121..129. -/
def kernelPhase {α : Type} (addOp : α → α → α) (n i : Int)
    (st : PipeState α) : PipeState α :=
  (List.range N_STREAMS).foldl (fun st s => kernelOp addOp n i s st) st

/-- The copy-out loop over streams, lines 131..139. -/
def copyOutPhase {α : Type} (n i : Int) (st : PipeState α) : PipeState α :=
  (List.range N_STREAMS).foldl (fun st s => memcpyOutOp n i s st) st

/-- One iteration of the chunk loop at lines 101..140: copy-in for all
streams, then the launches, then the copy-outs. -/
def runChunk {α : Type} (addOp : α → α → α) (in1 in2 : Int → α)
    (n i : Int) (st : PipeState α) : PipeState α :=
  copyOutPhase n i (kernelPhase addOp n i (copyInPhase in1 in2 n i st))

/-- Number of iterations of the loop
`for (i = 0; i < inputLength; i += segmentSize*N_STREAMS)`, line 101;
the stride is `segmentSize*N_STREAMS = 512`, so the loop body runs
`ceil(max(inputLength,0) / 512)` times. -/
def numChunks (n : Int) : Nat := (n.toNat + 511) / 512

/-- The successive values taken by the loop variable `i` of line 101:
`0, 512, 1024, ...`, one per executed iteration. -/
def chunkStarts (n : Int) : List Int :=
  (List.range (numChunks n)).map fun (k : Nat) => 512 * (k : Int)

/-- The whole scheduler loop, lines 101..140, starting from an arbitrary
state (the `malloc`-ed host output and the fresh device buffers are
uninitialised). -/
def runPipeline {α : Type} (addOp : α → α → α) (in1 in2 : Int → α)
    (n : Int) (st : PipeState α) : PipeState α :=
  (chunkStarts n).foldl (fun st i => runChunk addOp in1 in2 n i st) st

/-- Sum of the `copySize` values of every segment (chunk × stream) of
one full sweep of the scheduler. -/
def sweepSum (n : Int) : Int :=
  ((chunkStarts n).map fun (i : Int) =>
    ((List.range N_STREAMS).map fun (s : Nat) => copySizeIn n i ↑s).sum).sum

/-- Vocabulary of device operations issued by `main`.  `streamDestroy`
and `deviceSync` never occur in any trace of `Lab7.c` (the source calls
neither `cudaStreamDestroy` nor `cudaDeviceSynchronize`); they are
needed to state claims about teardown and synchronisation.  `buf` is
0, 1, 2 for `deviceInput1`, `deviceInput2`, `deviceOutput`. -/
inductive DevOp where
  | streamCreate (s : Nat)
  | streamDestroy (s : Nat)
  | malloc (s buf : Nat)
  | copyH2D (s buf : Nat) (off len : Int)
  | launch (s : Nat) (grid blk len : Int)
  | copyD2H (s : Nat) (off len : Int)
  | deviceSync
  | solution
  | freeBuf (s buf : Nat)
  deriving DecidableEq

/-- The `cudaStreamCreate` loop, lines 82..85. -/
def streamOps : List DevOp := (List.range N_STREAMS).map DevOp.streamCreate

/-- The `cudaMalloc` loop, lines 91..96. -/
def mallocOps : List DevOp :=
  (List.range N_STREAMS).flatMap fun s =>
    [DevOp.malloc s 0, DevOp.malloc s 1, DevOp.malloc s 2]

/-- The copies issued by the copy-in loop of one chunk, lines 105..119. -/
def copyInOps (n i : Int) : List DevOp :=
  (List.range N_STREAMS).flatMap fun s =>
    [DevOp.copyH2D s 0 (i + ↑s * segmentSize) (copySizeIn n i ↑s),
     DevOp.copyH2D s 1 (i + ↑s * segmentSize) (copySizeIn n i ↑s)]

/-- The launches issued by the kernel loop of one chunk, lines 121..129. -/
def launchOps (n i : Int) : List DevOp :=
  (List.range N_STREAMS).map fun s =>
    DevOp.launch s gridDim BLOCK_SIZE (copySizeKer n i ↑s)

/-- The copies issued by the copy-out loop of one chunk, lines 131..139. -/
def copyOutOps (n i : Int) : List DevOp :=
  (List.range N_STREAMS).map fun s =>
    DevOp.copyD2H s (i + ↑s * segmentSize) (copySizeOut n i ↑s)

/-- All operations issued by one iteration of the chunk loop. -/
def chunkOps (n i : Int) : List DevOp :=
  copyInOps n i ++ launchOps n i ++ copyOutOps n i

/-- All operations issued by the scheduler loop, lines 101..140. -/
def loopOps (n : Int) : List DevOp := (chunkStarts n).flatMap (chunkOps n)

/-- The `cudaFree` loop, lines 150..155. -/
def freeOps : List DevOp :=
  (List.range N_STREAMS).flatMap fun s =>
    [DevOp.freeBuf s 0, DevOp.freeBuf s 1, DevOp.freeBuf s 2]

/-- The ordered list of device operations `main` issues for a given
`inputLength`, with the `wbSolution` call (line 145) marked between the
loop and the frees. -/
def programTrace (n : Int) : List DevOp :=
  streamOps ++ mallocOps ++ loopOps n ++ [DevOp.solution] ++ freeOps

/-- Whether the source wraps the operation's return value in the
`check` macro.  Every CUDA call except the kernel launch is checked
(lines 84, 93..95, 113, 118, 138, 152..154); the launch at lines
125..128 is not, and `wbSolution` is not a device call. -/
def checked : DevOp → Bool
  | .launch _ _ _ _ => false
  | .solution => false
  | _ => true

/-- Source line of the `check` invocation guarding each operation (the
`__LINE__` printed by the diagnostic of lines 8..15); 0 for operations
that do not occur in `Lab7.c`. -/
def lineOf : DevOp → Nat
  | .streamCreate _ => 84
  | .streamDestroy _ => 0
  | .malloc _ b => 93 + b
  | .copyH2D _ b _ _ => if b = 0 then 113 else 118
  | .launch _ _ _ _ => 125
  | .copyD2H _ _ _ => 138
  | .deviceSync => 0
  | .solution => 145
  | .freeBuf _ b => 152 + b

/-- Outcome of a run: normal completion (`main` returns 0), or the
`exit(EXIT_FAILURE)` of the `check` macro with the diagnosed line and
the failing operation (the diagnostic of lines 11..12 prints the
platform error string, the file and the line). -/
inductive RunResult where
  | ok
  | exited (status : Nat) (line : Nat) (op : DevOp)
  deriving DecidableEq

/-- Execution of the issued operations under an error model `bad` that
says which operations report a device error.  A checked failing
operation triggers `check`: exit status `EXIT_FAILURE = 1` at the
check's line; a failure of an unchecked operation is ignored and
execution continues.  No operation is retried. -/
def runWithErrors : List DevOp → (DevOp → Bool) → RunResult
  | [], _ => .ok
  | op :: rest, bad =>
    if bad op && checked op then .exited 1 (lineOf op) op
    else runWithErrors rest bad

/-- Operations that release a device buffer. -/
def isFree : DevOp → Bool
  | .freeBuf _ _ => true
  | _ => false

/-- Kernel launches. -/
def isLaunch : DevOp → Bool
  | .launch _ _ _ _ => true
  | _ => false

/-- Data transfers. -/
def isCopy : DevOp → Bool
  | .copyH2D _ _ _ _ => true
  | .copyD2H _ _ _ => true
  | _ => false

/-- Operations issued inside the scheduler loop. -/
def isWork (op : DevOp) : Bool := isCopy op || isLaunch op

/-- Memory safety of one operation for input length `n`: a transfer
with positive length stays inside `[0, n)` on the host side and moves
at most `segmentSize` elements (the device buffer capacity); a launch's
`len` argument is between 0 and `segmentSize`, so its guarded writes
stay inside the device buffer.  Zero- or negative-length transfers move
nothing. -/
def opSafe (n : Int) : DevOp → Bool
  | .copyH2D _ _ off len =>
    decide (len ≤ 0 ∨ (0 ≤ off ∧ off + len ≤ n ∧ len ≤ segmentSize))
  | .copyD2H _ off len =>
    decide (len ≤ 0 ∨ (0 ≤ off ∧ off + len ≤ n ∧ len ≤ segmentSize))
  | .launch _ _ _ len => decide (0 ≤ len ∧ len ≤ segmentSize)
  | _ => true

/-- A concrete initial state over `Int` (stands for one fresh buffer
pool with one particular uninitialised content). -/
def initState : PipeState Int :=
  ⟨fun _ _ => 0, fun _ _ => 0, fun _ _ => 0, fun _ => 0⟩

/-- A second concrete initial state with different garbage contents. -/
def initStateB : PipeState Int :=
  ⟨fun _ _ => 7, fun _ _ => 7, fun _ _ => 7, fun _ => 7⟩

end Lab7

namespace Lab7

theorem copySizeKer_eq (n i s : Int) : copySizeKer n i s = copySizeIn n i s := rfl

theorem copySizeOut_eq (n i s : Int) : copySizeOut n i s = copySizeIn n i s := rfl

theorem gridDim_eq : gridDim = 1 := by decide

theorem copySizeIn_spec (n i s : Int) :
    0 ≤ copySizeIn n i s ∧ copySizeIn n i s ≤ 128 ∧
      (0 < copySizeIn n i s → copySizeIn n i s ≤ n - i - s * 128) := by
  unfold copySizeIn max' min' segmentSize
  split_ifs <;> omega

theorem copyInPhase_eq {α : Type} (in1 in2 : Int → α) (n i : Int) (st : PipeState α) :
    copyInPhase in1 in2 n i st =
      memcpyInOp in1 in2 n i 3 (memcpyInOp in1 in2 n i 2
        (memcpyInOp in1 in2 n i 1 (memcpyInOp in1 in2 n i 0 st))) := rfl

theorem kernelPhase_eq {α : Type} (addOp : α → α → α) (n i : Int) (st : PipeState α) :
    kernelPhase addOp n i st =
      kernelOp addOp n i 3 (kernelOp addOp n i 2
        (kernelOp addOp n i 1 (kernelOp addOp n i 0 st))) := rfl

theorem copyOutPhase_eq {α : Type} (n i : Int) (st : PipeState α) :
    copyOutPhase n i st =
      memcpyOutOp n i 3 (memcpyOutOp n i 2
        (memcpyOutOp n i 1 (memcpyOutOp n i 0 st))) := rfl

theorem copyInPhase_dIn1 {α : Type} (in1 in2 : Int → α) (n i : Int) (st : PipeState α)
    (s : Nat) (hs : s < 4) (j : Nat) :
    (copyInPhase in1 in2 n i st).dIn1 s j =
      if (j : Int) < copySizeIn n i ↑s then in1 (i + ↑s * segmentSize + ↑j)
      else st.dIn1 s j := by
  rw [copyInPhase_eq]
  interval_cases s <;> simp [memcpyInOp]

theorem copyInPhase_dIn2 {α : Type} (in1 in2 : Int → α) (n i : Int) (st : PipeState α)
    (s : Nat) (hs : s < 4) (j : Nat) :
    (copyInPhase in1 in2 n i st).dIn2 s j =
      if (j : Int) < copySizeIn n i ↑s then in2 (i + ↑s * segmentSize + ↑j)
      else st.dIn2 s j := by
  rw [copyInPhase_eq]
  interval_cases s <;> simp [memcpyInOp]

theorem kernelPhase_dOut {α : Type} (addOp : α → α → α) (n i : Int) (st : PipeState α)
    (s : Nat) (hs : s < 4) (j : Nat) :
    (kernelPhase addOp n i st).dOut s j =
      if (j : Int) < gridDim * BLOCK_SIZE ∧ (j : Int) < copySizeIn n i ↑s then
        addOp (st.dIn1 s j) (st.dIn2 s j)
      else st.dOut s j := by
  rw [kernelPhase_eq]
  interval_cases s <;> simp [kernelOp, vecAdd, copySizeKer_eq]

end Lab7

namespace Lab7

theorem copyOutPhase_hOut_covered {α : Type} (n i : Int) (st : PipeState α)
    (s : Nat) (hs : s < 4) (x : Int)
    (hlo : i + ↑s * 128 ≤ x) (hhi : x < i + ↑s * 128 + copySizeIn n i ↑s) :
    (copyOutPhase n i st).hOut x = st.dOut s (x - (i + ↑s * 128)).toNat := by
  have h0 := copySizeIn_spec n i 0
  have h1 := copySizeIn_spec n i 1
  have h2 := copySizeIn_spec n i 2
  have h3 := copySizeIn_spec n i 3
  rw [copyOutPhase_eq]
  interval_cases s <;>
    simp only [memcpyOutOp, copySizeOut_eq, segmentSize] <;>
    push_cast at * <;>
    norm_num <;>
    split_ifs <;>
    first
      | rfl
      | omega

theorem copyOutPhase_hOut_frame {α : Type} (n i : Int) (st : PipeState α) (x : Int)
    (h : ∀ s : Nat, s < 4 →
      ¬(i + ↑s * 128 ≤ x ∧ x < i + ↑s * 128 + copySizeIn n i ↑s)) :
    (copyOutPhase n i st).hOut x = st.hOut x := by
  have g0 := h 0 (by omega)
  have g1 := h 1 (by omega)
  have g2 := h 2 (by omega)
  have g3 := h 3 (by omega)
  rw [copyOutPhase_eq]
  simp only [memcpyOutOp, copySizeOut_eq, segmentSize] at *
  push_cast at *
  norm_num at g0 g1 g2 g3 ⊢
  split_ifs <;> first | rfl | omega

end Lab7

namespace Lab7

theorem runChunk_hOut {α : Type} (addOp : α → α → α) (in1 in2 : Int → α)
    (n i : Int) (st : PipeState α) (x : Int) :
    (runChunk addOp in1 in2 n i st).hOut x =
      if i ≤ x ∧ x < i + 512 ∧ x < n then addOp (in1 x) (in2 x)
      else st.hOut x := by
  by_cases hc : i ≤ x ∧ x < i + 512 ∧ x < n
  · obtain ⟨hcl, hcm, hcr⟩ := hc
    rw [if_pos ⟨hcl, hcm, hcr⟩]
    set sN : Nat := (x - i).toNat / 128 with hsN
    have hs4 : sN < 4 := by omega
    have hslo : i + ↑sN * 128 ≤ x := by omega
    have hshi : x < i + ↑sN * 128 + 128 := by omega
    have hspec := copySizeIn_spec n i ↑sN
    have hlen : x < i + ↑sN * 128 + copySizeIn n i ↑sN := by
      unfold copySizeIn max' min' segmentSize at *
      split_ifs at * <;> omega
    rw [runChunk, copyOutPhase_hOut_covered n i _ sN hs4 x hslo hlen]
    rw [kernelPhase_dOut addOp n i _ sN hs4]
    rw [if_pos]
    · rw [copyInPhase_dIn1 in1 in2 n i st sN hs4, copyInPhase_dIn2 in1 in2 n i st sN hs4]
      have hj : (((x - (i + ↑sN * 128)).toNat : Nat) : Int) < copySizeIn n i ↑sN := by omega
      rw [if_pos hj, if_pos hj]
      have harg : i + ↑sN * segmentSize + (((x - (i + ↑sN * 128)).toNat : Nat) : Int) = x := by
        unfold segmentSize; omega
      rw [harg]
    · constructor
      · rw [gridDim_eq]; unfold BLOCK_SIZE; omega
      · omega
  · rw [if_neg hc]
    have hframe : ∀ s : Nat, s < 4 →
        ¬(i + ↑s * 128 ≤ x ∧ x < i + ↑s * 128 + copySizeIn n i ↑s) := by
      intro s hs
      have hspec := copySizeIn_spec n i ↑s
      intro ⟨ha, hb⟩
      have hsle : (s : Int) ≤ 3 := by omega
      omega
    rw [runChunk, copyOutPhase_hOut_frame n i _ x hframe]
    rfl

end Lab7

namespace Lab7

theorem runChunksAux {α : Type} (addOp : α → α → α) (in1 in2 : Int → α) (n : Int) :
    ∀ (K : Nat) (st : PipeState α) (x : Int),
      ((List.range K).foldl
          (fun st (k : Nat) => runChunk addOp in1 in2 n (512 * (k : Int)) st) st).hOut x =
        if 0 ≤ x ∧ x < n ∧ x < 512 * (K : Int) then addOp (in1 x) (in2 x)
        else st.hOut x := by
  intro K
  induction K with
  | zero =>
    intro st x
    simp only [List.range_zero, List.foldl_nil]
    rw [if_neg]
    push_cast
    omega
  | succ K ih =>
    intro st x
    rw [List.range_succ, List.foldl_append, List.foldl_cons, List.foldl_nil]
    rw [runChunk_hOut addOp in1 in2 n (512 * (K : Int)) _ x]
    rw [ih st x]
    push_cast
    split_ifs <;> first | rfl | omega

end Lab7

namespace Lab7

theorem runPipeline_eq_fold {α : Type} (addOp : α → α → α) (in1 in2 : Int → α)
    (n : Int) (st : PipeState α) :
    runPipeline addOp in1 in2 n st =
      (List.range (numChunks n)).foldl
        (fun st (k : Nat) => runChunk addOp in1 in2 n (512 * (k : Int)) st) st := by
  rw [runPipeline, chunkStarts, List.foldl_map]

theorem runPipeline_hOut {α : Type} (addOp : α → α → α) (in1 in2 : Int → α)
    (n : Int) (st : PipeState α) (x : Int) (h1 : 0 ≤ x) (h2 : x < n) :
    (runPipeline addOp in1 in2 n st).hOut x = addOp (in1 x) (in2 x) := by
  rw [runPipeline_eq_fold, runChunksAux]
  rw [if_pos]
  refine ⟨h1, h2, ?_⟩
  have hK : n.toNat ≤ 512 * numChunks n := by unfold numChunks; omega
  omega

end Lab7

namespace Lab7

theorem max'_eq_max (a b : Int) : max' a b = max a b := by
  unfold max'
  split_ifs <;> omega

theorem min'_eq_min (a b : Int) : min' a b = min a b := by
  unfold min'
  split_ifs <;> omega

theorem copySizeIn_eval (n i s : Int) :
    copySizeIn n i s = max (min 128 (n - i - s * 128)) 0 := by
  unfold copySizeIn segmentSize
  rw [max'_eq_max, min'_eq_min]

theorem chunkSum (n i : Int) :
    ((List.range N_STREAMS).map fun (s : Nat) => copySizeIn n i ↑s).sum =
      max' (min' 512 (n - i)) 0 := by
  have h : List.range N_STREAMS = [0, 1, 2, 3] := rfl
  rw [h]
  simp only [List.map_cons, List.map_nil, List.sum_cons, List.sum_nil,
    copySizeIn_eval, max'_eq_max, min'_eq_min]
  push_cast
  omega

theorem sweepAux :
    ∀ (K : Nat) (n : Int), 0 ≤ n → numChunks n = K →
      ((List.range K).map
        (fun (k : Nat) => max' (min' 512 (n - 512 * (k : Int))) 0)).sum = n := by
  intro K
  induction K with
  | zero =>
    intro n hn hK
    unfold numChunks at hK
    simp only [List.range_zero, List.map_nil, List.sum_nil]
    omega
  | succ K ih =>
    intro n hn hK
    rw [List.range_succ_eq_map, List.map_cons, List.sum_cons, List.map_map]
    by_cases hsmall : n ≤ 512
    · have hK0 : K = 0 := by unfold numChunks at hK; omega
      subst hK0
      simp only [List.range_zero, List.map_nil, List.sum_nil,
        max'_eq_max, min'_eq_min]
      push_cast
      omega
    · have hrec : numChunks (n - 512) = K := by
        unfold numChunks at hK ⊢; omega
      have hmap :
          (List.range K).map
              ((fun (k : Nat) => max' (min' 512 (n - 512 * (k : Int))) 0) ∘ Nat.succ) =
            (List.range K).map
              (fun (k : Nat) => max' (min' 512 ((n - 512) - 512 * (k : Int))) 0) := by
        apply List.map_congr_left
        intro k hk
        simp only [Function.comp_apply]
        congr 1
        congr 1
        push_cast
        ring
      rw [hmap, ih (n - 512) (by omega) hrec]
      simp only [max'_eq_max, min'_eq_min]
      push_cast
      omega

theorem sweepSum_eq (n : Int) (hn : 0 ≤ n) : sweepSum n = n := by
  rw [sweepSum, chunkStarts, List.map_map]
  have hmap :
      (List.range (numChunks n)).map
          ((fun (i : Int) =>
              ((List.range N_STREAMS).map fun (s : Nat) => copySizeIn n i ↑s).sum) ∘
            fun (k : Nat) => 512 * (k : Int)) =
        (List.range (numChunks n)).map
          (fun (k : Nat) => max' (min' 512 (n - 512 * (k : Int))) 0) := by
    apply List.map_congr_left
    intro k hk
    simp only [Function.comp_apply]
    rw [chunkSum]
  rw [hmap, sweepAux (numChunks n) n hn rfl]

end Lab7

namespace Lab7

theorem mem_chunkOps (n i : Int) (op : DevOp) (h : op ∈ chunkOps n i) :
    ∃ s : Nat, s < 4 ∧
      (op = DevOp.copyH2D s 0 (i + ↑s * segmentSize) (copySizeIn n i ↑s) ∨
       op = DevOp.copyH2D s 1 (i + ↑s * segmentSize) (copySizeIn n i ↑s) ∨
       op = DevOp.launch s gridDim BLOCK_SIZE (copySizeKer n i ↑s) ∨
       op = DevOp.copyD2H s (i + ↑s * segmentSize) (copySizeOut n i ↑s)) := by
  rw [chunkOps, copyInOps, launchOps, copyOutOps] at h
  simp only [List.mem_append, List.mem_flatMap, List.mem_map, List.mem_range,
    List.mem_cons, List.not_mem_nil, or_false] at h
  rcases h with (⟨s, hs, h⟩ | ⟨s, hs, h⟩) | ⟨s, hs, h⟩ <;>
    exact ⟨s, by unfold N_STREAMS at hs; omega, by tauto⟩

theorem mem_loopOps_isWork (n : Int) (op : DevOp) (h : op ∈ loopOps n) :
    isWork op = true := by
  rw [loopOps] at h
  simp only [List.mem_flatMap] at h
  obtain ⟨i, hi, hop⟩ := h
  obtain ⟨s, hs, hcase⟩ := mem_chunkOps n i op hop
  rcases hcase with rfl | rfl | rfl | rfl <;> rfl

theorem loopOps_count_eq_zero (n : Int) (op : DevOp) (h : isWork op = false) :
    (loopOps n).count op = 0 := by
  rw [List.count_eq_zero]
  intro hmem
  rw [mem_loopOps_isWork n op hmem] at h
  cases h

theorem mem_chunkStarts (n i : Int) (h : i ∈ chunkStarts n) :
    0 ≤ i ∧ i < n := by
  rw [chunkStarts] at h
  simp only [List.mem_map, List.mem_range] at h
  obtain ⟨k, hk, rfl⟩ := h
  unfold numChunks at hk
  omega

end Lab7

namespace Lab7

theorem isWork_not_free (op : DevOp) (h : isWork op = true) : isFree op = false := by
  cases op <;> first | rfl | (rw [isWork] at h; simp [isCopy, isLaunch] at h)

theorem loopOps_count_malloc (n : Int) (s b : Nat) :
    (loopOps n).count (DevOp.malloc s b) = 0 :=
  loopOps_count_eq_zero n _ rfl

theorem loopOps_count_freeBuf (n : Int) (s b : Nat) :
    (loopOps n).count (DevOp.freeBuf s b) = 0 :=
  loopOps_count_eq_zero n _ rfl

theorem loopOps_count_streamCreate (n : Int) (s : Nat) :
    (loopOps n).count (DevOp.streamCreate s) = 0 :=
  loopOps_count_eq_zero n _ rfl

theorem loopOps_count_streamDestroy (n : Int) (s : Nat) :
    (loopOps n).count (DevOp.streamDestroy s) = 0 :=
  loopOps_count_eq_zero n _ rfl

theorem loopOps_count_deviceSync (n : Int) :
    (loopOps n).count DevOp.deviceSync = 0 :=
  loopOps_count_eq_zero n _ rfl

theorem trace_count_malloc (n : Int) (s b : Nat) (hs : s < 4) (hb : b < 3) :
    (programTrace n).count (DevOp.malloc s b) = 1 := by
  rw [programTrace]
  simp only [List.count_append]
  rw [loopOps_count_malloc]
  interval_cases s <;> interval_cases b <;> decide

theorem trace_count_freeBuf (n : Int) (s b : Nat) (hs : s < 4) (hb : b < 3) :
    (programTrace n).count (DevOp.freeBuf s b) = 1 := by
  rw [programTrace]
  simp only [List.count_append]
  rw [loopOps_count_freeBuf]
  interval_cases s <;> interval_cases b <;> decide

theorem trace_count_streamCreate (n : Int) (s : Nat) (hs : s < 4) :
    (programTrace n).count (DevOp.streamCreate s) = 1 := by
  rw [programTrace]
  simp only [List.count_append]
  rw [loopOps_count_streamCreate]
  interval_cases s <;> decide

theorem trace_count_streamDestroy (n : Int) (s : Nat) :
    (programTrace n).count (DevOp.streamDestroy s) = 0 := by
  rw [programTrace]
  simp only [List.count_append]
  rw [loopOps_count_streamDestroy]
  have h1 : streamOps.count (DevOp.streamDestroy s) = 0 := by
    rw [List.count_eq_zero]
    intro h
    simp [streamOps] at h
  have h2 : mallocOps.count (DevOp.streamDestroy s) = 0 := by
    rw [List.count_eq_zero]
    intro h
    simp [mallocOps] at h
  have h3 : freeOps.count (DevOp.streamDestroy s) = 0 := by
    rw [List.count_eq_zero]
    intro h
    simp [freeOps] at h
  have h4 : [DevOp.solution].count (DevOp.streamDestroy s) = 0 := by
    rw [List.count_eq_zero]
    intro h
    simp at h
  rw [h1, h2, h3, h4]

theorem trace_count_deviceSync (n : Int) :
    (programTrace n).count DevOp.deviceSync = 0 := by
  rw [programTrace]
  simp only [List.count_append]
  rw [loopOps_count_deviceSync]
  decide

theorem trace_split (n : Int) :
    programTrace n =
      (streamOps ++ mallocOps ++ loopOps n) ++ DevOp.solution :: freeOps ∧
      (∀ op ∈ streamOps ++ mallocOps ++ loopOps n, isFree op = false) ∧
      (∀ op ∈ freeOps, isFree op = true) := by
  refine ⟨by simp [programTrace], ?_, by decide⟩
  intro op hop
  simp only [List.mem_append] at hop
  rcases hop with (h | h) | h
  · have hall : ∀ op2 ∈ streamOps, isFree op2 = false := by decide
    exact hall op h
  · have hall : ∀ op2 ∈ mallocOps, isFree op2 = false := by decide
    exact hall op h
  · exact isWork_not_free op (mem_loopOps_isWork n op h)

end Lab7

namespace Lab7

theorem runWithErrors_ok_iff (l : List DevOp) (bad : DevOp → Bool) :
    runWithErrors l bad = RunResult.ok ↔
      ∀ op ∈ l, ¬(bad op = true ∧ checked op = true) := by
  induction l with
  | nil => simp [runWithErrors]
  | cons op rest ih =>
    rw [runWithErrors]
    by_cases h : (bad op && checked op) = true
    · rw [if_pos h]
      simp only [Bool.and_eq_true] at h
      constructor
      · intro habs
        exact absurd habs (by simp)
      · intro hall
        exact absurd ⟨h.1, h.2⟩ (hall op (List.mem_cons_self op rest))
    · rw [if_neg h]
      rw [ih]
      simp only [Bool.and_eq_true] at h
      constructor
      · intro hall op2 hmem
        rcases List.mem_cons.mp hmem with rfl | hmem2
        · exact h
        · exact hall op2 hmem2
      · intro hall op2 hmem
        exact hall op2 (List.mem_cons_of_mem op hmem)

theorem runWithErrors_exited (l : List DevOp) (bad : DevOp → Bool) :
    ∀ st ln op, runWithErrors l bad = RunResult.exited st ln op →
      st = 1 ∧ ln = lineOf op ∧ bad op = true ∧ checked op = true ∧ op ∈ l := by
  induction l with
  | nil =>
    intro st ln op h
    simp [runWithErrors] at h
  | cons op2 rest ih =>
    intro st ln op h
    rw [runWithErrors] at h
    by_cases hb : (bad op2 && checked op2) = true
    · rw [if_pos hb] at h
      cases h
      simp only [Bool.and_eq_true] at hb
      exact ⟨rfl, rfl, hb.1, hb.2, List.mem_cons_self op2 rest⟩
    · rw [if_neg hb] at h
      obtain ⟨h1, h2, h3, h4, h5⟩ := ih st ln op h
      exact ⟨h1, h2, h3, h4, List.mem_cons_of_mem op2 h5⟩

theorem runWithErrors_noFail (l : List DevOp) :
    runWithErrors l (fun _ => false) = RunResult.ok := by
  induction l with
  | nil => rfl
  | cons op rest ih =>
    rw [runWithErrors]
    simpa using ih

theorem trace_opSafe (n : Int) (op : DevOp) (h : op ∈ programTrace n) :
    opSafe n op = true := by
  rw [programTrace] at h
  simp only [List.mem_append] at h
  rcases h with (((h | h) | h) | h) | h
  · simp only [streamOps, List.mem_map] at h
    obtain ⟨s, _, rfl⟩ := h
    rfl
  · simp only [mallocOps, List.mem_flatMap, List.mem_cons, List.not_mem_nil,
      or_false] at h
    obtain ⟨s, _, rfl | rfl | rfl⟩ := h <;> rfl
  · rw [loopOps] at h
    simp only [List.mem_flatMap] at h
    obtain ⟨i, hi, hop⟩ := h
    obtain ⟨hi0, hin⟩ := mem_chunkStarts n i hi
    obtain ⟨s, hs, hcase⟩ := mem_chunkOps n i op hop
    have hcs := copySizeIn_eval n i ↑s
    rcases hcase with rfl | rfl | rfl | rfl <;>
    · simp only [opSafe, copySizeKer_eq, copySizeOut_eq, segmentSize,
        decide_eq_true_eq]
      omega
  · simp only [List.mem_cons, List.not_mem_nil, or_false] at h
    subst h
    rfl
  · simp only [freeOps, List.mem_flatMap, List.mem_cons, List.not_mem_nil,
      or_false] at h
    obtain ⟨s, _, rfl | rfl | rfl⟩ := h <;> rfl

end Lab7

namespace Lab7

/-- C1: for every `inputLength ≥ 0` and every index `idx` in
`[0, inputLength)`, after the pipeline completes the host output vector
holds exactly `input1[idx] + input2[idx]`, a single un-reduced addition
(stated over an abstract carrier and addition, hence exact equality). -/
theorem C1_output_elementwise_sum :
    ∀ (α : Type) (addOp : α → α → α) (in1 in2 : Int → α) (n : Int)
      (st0 : PipeState α) (idx : Int),
      0 ≤ n → 0 ≤ idx → idx < n →
      (runPipeline addOp in1 in2 n st0).hOut idx = addOp (in1 idx) (in2 idx) :=
  fun _ addOp in1 in2 n st0 idx _ h1 h2 =>
    runPipeline_hOut addOp in1 in2 n st0 idx h1 h2

theorem C1_output_elementwise_sum_witness :
    (runPipeline (fun a b => a + b) (fun x => x) (fun _ => (1 : Int)) 513
        initState).hOut 512 = 512 + 1 :=
  C1_output_elementwise_sum Int (fun a b => a + b) (fun x => x) (fun _ => 1)
    513 initState 512 (by decide) (by decide) (by decide)

/-- C2: each kernel worker with global index `idx` writes
`in1[idx] + in2[idx]` to `out[idx]` exactly when `idx < len` and performs
no write otherwise; because the launch grid (sized from the fixed
`segmentSize`) covers `[0, gridDim*BLOCK_SIZE) = [0, 128)` and the `len`
argument always satisfies `0 ≤ len ≤ segmentSize`, the bounds check makes
every launch safe, including `len = 0`. -/
theorem C2_kernel_bounds_check :
    (∀ (α : Type) (addOp : α → α → α) (b1 b2 b3 : Nat → α) (len : Int)
        (idx : Nat), 0 ≤ len → len ≤ segmentSize →
        vecAdd addOp b1 b2 b3 len idx =
          if (idx : Int) < len then addOp (b1 idx) (b2 idx) else b3 idx) ∧
    (∀ n i s : Int, 0 ≤ copySizeKer n i s ∧ copySizeKer n i s ≤ segmentSize) := by
  constructor
  · intro α addOp b1 b2 b3 len idx h0 hle
    have hgB : gridDim * BLOCK_SIZE = 128 := by decide
    have hs : segmentSize = 128 := rfl
    rw [vecAdd]
    split_ifs <;> first | rfl | omega
  · intro n i s
    have h := copySizeIn_eval n i s
    have hs : segmentSize = 128 := rfl
    rw [copySizeKer_eq]
    omega

theorem C2_kernel_bounds_check_witness :
    vecAdd (fun a b => a + b) (fun _ => (2 : Int)) (fun _ => 3) (fun _ => 9)
      1 0 = 2 + 3 :=
  (C2_kernel_bounds_check.1 Int (fun a b => a + b) (fun _ => 2) (fun _ => 3)
    (fun _ => 9) 1 0 (by decide) (by decide)).trans (by decide)

/-- C3: over one full sweep the segment sizes `copySize` sum to exactly
`inputLength`, and a segment with `copySize = 0` is a no-op in all three
phases (its copies and its launch change nothing), not an error. -/
theorem C3_sweep_covers_input :
    ∀ n : Int, (0 ≤ n → sweepSum n = n) ∧
      (∀ (α : Type) (addOp : α → α → α) (in1 in2 : Int → α) (i : Int)
         (s : Nat) (st : PipeState α), copySizeIn n i ↑s = 0 →
         memcpyInOp in1 in2 n i s st = st ∧ kernelOp addOp n i s st = st ∧
           memcpyOutOp n i s st = st) := by
  intro n
  refine ⟨sweepSum_eq n, ?_⟩
  intro α addOp in1 in2 i s st h
  refine ⟨?_, ?_, ?_⟩
  · rw [memcpyInOp]
    have hd1 : (fun (s' j : Nat) =>
        if s' = s ∧ (j : Int) < copySizeIn n i ↑s then
          in1 (i + ↑s * segmentSize + ↑j)
        else st.dIn1 s' j) = st.dIn1 := by
      funext s' j
      rw [if_neg]
      rintro ⟨-, hj⟩
      rw [h] at hj
      omega
    have hd2 : (fun (s' j : Nat) =>
        if s' = s ∧ (j : Int) < copySizeIn n i ↑s then
          in2 (i + ↑s * segmentSize + ↑j)
        else st.dIn2 s' j) = st.dIn2 := by
      funext s' j
      rw [if_neg]
      rintro ⟨-, hj⟩
      rw [h] at hj
      omega
    rw [hd1, hd2]
  · rw [kernelOp]
    have hdO : (fun (s' j : Nat) =>
        if s' = s then
          vecAdd addOp (st.dIn1 s) (st.dIn2 s) (st.dOut s)
            (copySizeKer n i ↑s) j
        else st.dOut s' j) = st.dOut := by
      funext s' j
      by_cases hss : s' = s
      · rw [if_pos hss]
        simp only [vecAdd]
        rw [copySizeKer_eq, h]
        rw [if_neg]
        · rw [hss]
        · rintro ⟨-, hj⟩
          omega
      · rw [if_neg hss]
    rw [hdO]
  · rw [memcpyOutOp]
    have hhO : (fun (x : Int) =>
        if i + ↑s * segmentSize ≤ x ∧
            x < i + ↑s * segmentSize + copySizeOut n i ↑s then
          st.dOut s (x - (i + ↑s * segmentSize)).toNat
        else st.hOut x) = st.hOut := by
      funext x
      rw [if_neg]
      rw [copySizeOut_eq, h]
      rintro ⟨h1, h2⟩
      omega
    rw [hhO]

theorem C3_sweep_covers_input_witness :
    sweepSum 513 = 513 ∧
      @memcpyOutOp Int 513 512 1 initState = initState :=
  ⟨(C3_sweep_covers_input 513).1 (by decide),
   ((C3_sweep_covers_input 513).2 Int (fun a b => a + b) (fun x => x)
      (fun x => x) 512 1 initState (by decide)).2.2⟩

end Lab7

namespace Lab7

/-- C4 counterexample: at `inputLength = 1`, make every kernel launch
report a device error; the trace does contain launches, yet the run
completes normally (exit status 0), because the source never checks the
launch.  This refutes the claim that every device-operation failure
terminates the process with a non-zero exit status. -/
theorem C4_launch_failure_not_fatal :
    (programTrace 1).any isLaunch = true ∧
      runWithErrors (programTrace 1) isLaunch = RunResult.ok := by
  constructor <;> decide

/-- C4 amended: a failure of a checked operation (stream creation,
allocation, the asynchronous copies, the frees) — and only of a checked
operation — aborts the run; the abort carries exit status 1
(`EXIT_FAILURE`) and the source line of the failing `check` site, as the
diagnostic of lines 11..12 does.  Kernel-launch failures are invisible. -/
theorem C4_checked_failures_fatal :
    ∀ (n : Int) (bad : DevOp → Bool),
      (runWithErrors (programTrace n) bad = RunResult.ok ↔
        ∀ op ∈ programTrace n, ¬(bad op = true ∧ checked op = true)) ∧
      (∀ st ln op,
        runWithErrors (programTrace n) bad = RunResult.exited st ln op →
          st = 1 ∧ ln = lineOf op ∧ bad op = true ∧ checked op = true ∧
            op ∈ programTrace n) :=
  fun n bad =>
    ⟨runWithErrors_ok_iff (programTrace n) bad,
     runWithErrors_exited (programTrace n) bad⟩

theorem C4_checked_failures_fatal_witness :
    runWithErrors (programTrace 0) (fun _ => true) ≠ RunResult.ok := by
  intro hok
  have h := (C4_checked_failures_fatal 0 (fun _ => true)).1.mp hok
    (DevOp.streamCreate 0) (by decide)
  exact h ⟨rfl, rfl⟩

/-- C5 counterexample: at `inputLength = 512` no stream is ever
released — the trace contains no `cudaStreamDestroy` at all — so the
claim that all `N_STREAMS` streams are released exactly once is false. -/
theorem C5_streams_never_destroyed :
    (programTrace 512).count (DevOp.streamDestroy 0) = 0 := by decide

/-- C5 amended: each of the `3 * N_STREAMS` device buffers is allocated
exactly once and released exactly once (releases equal allocations, no
double release, no release without allocation), and every release comes
after the whole scheduler loop and after the output is consumed by
`wbSolution`; each stream is created exactly once but never destroyed. -/
theorem C5_buffer_release_accounting :
    ∀ (n : Int) (s b : Nat), s < 4 → b < 3 →
      (programTrace n).count (DevOp.malloc s b) = 1 ∧
      (programTrace n).count (DevOp.freeBuf s b) = 1 ∧
      (programTrace n).count (DevOp.streamCreate s) = 1 ∧
      (programTrace n).count (DevOp.streamDestroy s) = 0 ∧
      programTrace n =
        (streamOps ++ mallocOps ++ loopOps n) ++ DevOp.solution :: freeOps ∧
      (∀ op ∈ streamOps ++ mallocOps ++ loopOps n, isFree op = false) ∧
      (∀ op ∈ freeOps, isFree op = true) :=
  fun n s b hs hb =>
    ⟨trace_count_malloc n s b hs hb, trace_count_freeBuf n s b hs hb,
     trace_count_streamCreate n s hs, trace_count_streamDestroy n s,
     (trace_split n).1, (trace_split n).2.1, (trace_split n).2.2⟩

theorem C5_buffer_release_accounting_witness :
    (programTrace 0).count (DevOp.freeBuf 3 2) = 1 :=
  (C5_buffer_release_accounting 0 3 2 (by decide) (by decide)).2.1

/-- C6 counterexample: at `inputLength = 512` the issued operations
contain no global synchronization point anywhere — in particular none
between the scheduler loop and the verification call — refuting the
claim that one is issued before the host reads the output. -/
theorem C6_sync_absent_at_512 :
    ¬ DevOp.deviceSync ∈ programTrace 512 := by decide

/-- C6 amended: for every input length the source issues no global
synchronization at all; `hostOutput` is handed to `wbSolution` right
after the loop with the asynchronous copy-outs possibly still in
flight, so a reimplementation must add the synchronization explicitly
(as the spec itself notes). -/
theorem C6_no_global_sync_issued :
    ∀ n : Int, (programTrace n).count DevOp.deviceSync = 0 :=
  trace_count_deviceSync

/-- C7: for `inputLength = 0` the scheduler loop runs zero iterations,
issues no transfers and no launches, runs without error, and leaves the
(empty) output untouched. -/
theorem C7_empty_input :
    numChunks 0 = 0 ∧ chunkStarts 0 = [] ∧
    (programTrace 0).all (fun op => !isWork op) = true ∧
    runWithErrors (programTrace 0) (fun _ => false) = RunResult.ok ∧
    ∀ (α : Type) (addOp : α → α → α) (in1 in2 : Int → α) (st : PipeState α),
      runPipeline addOp in1 in2 0 st = st := by
  refine ⟨rfl, rfl, by decide, by decide, ?_⟩
  intro α addOp in1 in2 st
  rfl

/-- C8: for `inputLength = 512*k + 1` the scheduler runs `k + 1` chunks;
in the final chunk stream 0 gets `copySize = 1` and streams 1..3 get
`copySize = 0`; every transfer of the whole run stays inside the host
vectors and the device buffers, and the run raises no device error. -/
theorem C8_tail_chunk :
    ∀ k : Nat,
      numChunks (512 * (k : Int) + 1) = k + 1 ∧
      copySizeIn (512 * (k : Int) + 1) (512 * (k : Int)) 0 = 1 ∧
      (∀ s : Nat, 1 ≤ s → s < 4 →
        copySizeIn (512 * (k : Int) + 1) (512 * (k : Int)) ↑s = 0) ∧
      (∀ op ∈ programTrace (512 * (k : Int) + 1),
        opSafe (512 * (k : Int) + 1) op = true) ∧
      runWithErrors (programTrace (512 * (k : Int) + 1)) (fun _ => false) =
        RunResult.ok := by
  intro k
  refine ⟨?_, ?_, ?_, fun op hmem => trace_opSafe _ op hmem,
    runWithErrors_noFail _⟩
  · unfold numChunks
    omega
  · rw [copySizeIn_eval]
    omega
  · intro s h1 h4
    rw [copySizeIn_eval]
    omega

theorem C8_tail_chunk_witness :
    copySizeIn 513 512 1 = 0 ∧ opSafe 513 (DevOp.copyD2H 0 512 1) = true := by
  constructor
  · have h := (C8_tail_chunk 1).2.2.1 1 (by decide) (by decide)
    simpa using h
  · have h := (C8_tail_chunk 1).2.2.2.1 (DevOp.copyD2H 0 512 1) (by decide)
    simpa using h

/-- C9: the pipeline output is deterministic in the inputs — two runs on
the same input vectors with two different fresh buffer pools (arbitrary
initial device-buffer and host-output garbage) agree on every valid
output index. -/
theorem C9_deterministic :
    ∀ (α : Type) (addOp : α → α → α) (in1 in2 : Int → α) (n : Int)
      (stA stB : PipeState α) (idx : Int), 0 ≤ idx → idx < n →
      (runPipeline addOp in1 in2 n stA).hOut idx =
        (runPipeline addOp in1 in2 n stB).hOut idx :=
  fun _ addOp in1 in2 n stA stB idx h1 h2 =>
    (runPipeline_hOut addOp in1 in2 n stA idx h1 h2).trans
      (runPipeline_hOut addOp in1 in2 n stB idx h1 h2).symm

theorem C9_deterministic_witness :
    (runPipeline (fun a b => a + b) (fun x => 2 * x) (fun x => x) 513
        initState).hOut 100 =
      (runPipeline (fun a b => a + b) (fun x => 2 * x) (fun x => x) 513
        initStateB).hOut 100 :=
  C9_deterministic Int (fun a b => a + b) (fun x => 2 * x) (fun x => x) 513
    initState initStateB 100 (by decide) (by decide)

/-- C10: the three per-segment lengths — the one used for both copy-in
transfers (line 107), the `len` kernel argument (line 123), and the
copy-out length (line 133) — are all the same function
`max(min(segmentSize, inputLength - i - s*segmentSize), 0)`, so the
three phases of one segment always agree on the number of valid
elements. -/
theorem C10_copySize_agreement :
    ∀ n i s : Int,
      copySizeIn n i s = copySizeKer n i s ∧
      copySizeOut n i s = copySizeKer n i s ∧
      copySizeIn n i s = max' (min' segmentSize (n - i - s * segmentSize)) 0 :=
  fun _ _ _ => ⟨rfl, rfl, rfl⟩

end Lab7
